import Mathlib

/-!
Shallow embedding of `src/AMBER/mesmy.py`.

The program `mesmy_cli` parses two required path flags, loads a structure,
counts non-water residues, and prints a fixed shell-script template with the
topology path, coordinate path and residue count substituted at three
consecutive assignment lines. The template text below is the literal content
of the f-string `script` in the source (lines 25-238), line by line: the
eleven lines before the three substituted assignment lines form
`tmplHeadLines`, the lines after them form `tmplTailLines`.
-/

set_option maxRecDepth 100000
set_option maxHeartbeats 4000000

/-- The `__version__` string from the source. -/
def versionString : String := "1.0.0"

def tmplHeadLines : List String := [
  "#!/bin/bash",
  "",
  "    # An equilibration workflow.",
  "    # Designed for \"standard\" protein or protein/ligand systems",
  "    # in explicit solvent. Not optimised for membrane protein systems.",
  "    #",
  "    # Developed from scripts provided by the Hughes lab at the University",
  "    # of Montana.",
  "    #",
  "",
  "    # You may wish to modify some of the parameters below."]

def tmplTailLines : List String := [
  "    T=\"310.0\" # target temperature in K",
  "    PMEMD=\"pmemd.cuda\" # name of your MD executable (e.g. may be \"pmemd.MPI\")",
  "",
  "    ### DO NOT MODIFY BELOW THIS LINE UNLESS YOU KNOW WHAT YOU ARE DOING ###",
  "    # 1K step energy minimization, strong restraints on heavy atoms, no shake",
  "    cat > step1.in <<EOF",
  "    Min with strong restraints on heavy atoms, no shake",
  "    &cntrl",
  "    imin = 1, ncyc = 50, maxcyc = 1000,",
  "    ntpr = 50,",
  "    ntr = 1, restraintmask = \x27:1-$solute & !@H=\x27, restraint_wt = 5.0,",
  "    &end",
  "    EOF",
  "",
  "    # NVT MD with strong restraints on heavy atoms, shake, dt=.001, 15 ps",
  "    cat > step2.in <<EOF",
  "    NVT MD with strong restraints on heavy atoms, shake dt 0.001 15 ps",
  "    &cntrl",
  "    imin = 0, nstlim = 30000, dt=0.001,",
  "    ntpr = 50, ntwr = 500,",
  "    iwrap = 1,",
  "    ntc = 2, ntf = 2,",
  "    ntt = 3, gamma_ln = 5, temp0 = $T, tempi = $T,",
  "    ntr = 1, restraintmask = \x27:1-$solute & !@H=\x27, restraint_wt = 5.0,",
  "    &end",
  "    EOF",
  "",
  "    # Energy minimization with relaxed restraints on heavy atoms, no shake",
  "    cat > step3.in <<EOF",
  "    Min with relaxed restraints on heavy atoms",
  "    &cntrl",
  "    imin = 1, ncyc = 50, maxcyc = 1000,",
  "    ntpr = 50,",
  "    ntr = 1, restraintmask = \x27:1-$solute & !@H=\x27, restraint_wt = 2.0,",
  "    &end",
  "    EOF",
  "",
  "    # Energy minimization with minimal restraints on heavy atoms, no shake",
  "    cat > step4.in <<EOF",
  "    Min with minimal restraints on heavy atoms",
  "    &cntrl",
  "    imin = 1, ncyc = 50, maxcyc = 1000,",
  "    ntpr = 50,",
  "    ntr = 1, restraintmask = \x27:1-$solute & !@H=\x27, restraint_wt = 0.1,",
  "    &end",
  "    EOF",
  "",
  "    # Energy minimization with no restraints, no shake",
  "    cat > step5.in <<EOF",
  "    Min with no restraints",
  "    &cntrl",
  "    imin = 1, ncyc = 50, maxcyc = 1000,",
  "    ntpr = 50,",
  "    &end",
  "    EOF",
  "",
  "    # NPT MD with shake and low restraints on heavy atoms, 20 ps dt=.002",
  "    cat > step6.in <<EOF",
  "    NPT MD with shake and low restraints on heavy atoms, 20 ps dt=.002",
  "    &cntrl",
  "    imin = 0, nstlim = 10000, dt = 0.002,",
  "    ntwx = 1000, ntpr = 50, ntwr = 500,",
  "    iwrap = 1,",
  "    ntc = 2, ntf = 2, ntb = 2,",
  "    ntt = 3, gamma_ln = 5, temp0 = $T, tempi = $T,",
  "    ntp = 1, taup = 1.0,",
  "    ntr = 1, restraintmask = \x27:1-$solute & !@H=\x27, restraint_wt = 1.0,",
  "    &end",
  "    EOF",
  "",
  "    # NPT MD with shake and minimal restraints on heavy atoms",
  "    cat > step7.in <<EOF",
  "    NPT MD with minimal restraints on heavy atoms, 20 ps dt=.002",
  "    &cntrl",
  "    imin = 0, nstlim = 10000, dt=0.002,",
  "    ntx = 5, irest = 1,",
  "    ntwx = 1000, ntpr = 50, ntwr = 500,",
  "    iwrap = 1,",
  "    ntc = 2, ntf = 2, ntb = 2,",
  "    ntt = 3, gamma_ln = 5, temp0 = $T, tempi = $T,",
  "    ntp = 1, taup = 1.0,",
  "    ntr = 1, restraintmask = \x27:1-$solute & !@H=\x27, restraint_wt = 0.5,",
  "    &end",
  "    EOF",
  "",
  "    # NPT MD, shake and minimal restraints on backbone atoms, dt=0.002, 20 ps",
  "    cat > step8.in <<EOF",
  "    NPT MD with minimal restraints on backbone atoms, 20 ps dt=.002",
  "    &cntrl",
  "    imin = 0, nstlim = 10000, dt=0.002,",
  "    ntx = 5, irest = 1,",
  "    ntwx = 1000, ntpr = 50, ntwr = 500,",
  "    iwrap = 1,",
  "    ntc = 2, ntf = 2, ntb = 2,",
  "    ntt = 3, gamma_ln = 5, temp0 = $T, tempi = $T,",
  "    ntp = 1, taup = 1.0,",
  "    ntr = 1, restraintmask = \":1-$solute@H,N,CA,HA,C,O\", restraint_wt = 0.5,",
  "    &end",
  "    EOF",
  "",
  "    # NPT MD with shake and no restraints, dt=0.002, 200 ps",
  "    cat > step9.in <<EOF",
  "    NPT MD no restraints, dt=0.002, 200 ps",
  "    &cntrl",
  "    imin = 0, nstlim = 10000, dt=0.002,",
  "    ntx = 5, irest = 1,",
  "    ntwx = 1000, ntpr = 50, ntwr = 500,",
  "    iwrap = 1,",
  "    ntc = 2, ntf = 2, ntb = 2,",
  "    ntt = 3, gamma_ln = 5, temp0 = $T, tempi = $T,",
  "    ntp = 1, taup = 1.0,",
  "    &end",
  "    EOF",
  "",
  "    START=\"`date +%s.%N`\"",
  "",
  "    # Minimization Phase - reference coords are updated each run",
  "    for RUN in step1 step2 step3 step4 step5 ; do",
  "    echo \"------------------------\"",
  "    echo \"Minimization phase: $RUN\"",
  "    echo \"------------------------\"",
  "    if [[ ! -f $RUN.out ]]; then",
  "        echo \"File -- $RUN.out -- does not exists. Running job...\"",
  "        runme=1",
  "    else",
  "        grep -q \x27Total wall time\x27 $RUN.out",
  "        retval=$?",
  "        if [ $retval -ne 0 ]; then",
  "        echo \"$RUN did not complete last time. Trying again...\"",
  "        runme=1",
  "        else",
  "            echo \"$RUN has already completed.  Checking the next step.\"",
  "            runme=0",
  "        fi",
  "    fi",
  "",
  "    if [ $runme -eq 1 ]; then",
  "        $PMEMD -O -i $RUN.in -p $prmtop_file -c $inpcrd_file \\",
  "        -ref $inpcrd_file -o $RUN.out -x $RUN.nc -r $RUN.ncrst \\",
  "            -inf $RUN.mdinfo",
  "        grep -q \x27Total wall time\x27 $RUN.out",
  "        retval=$?",
  "        if [ $retval -ne 0 ]; then",
  "            echo \"Error - job failed at this step.\"",
  "        exit $retval",
  "        fi",
  "    fi",
  "",
  "    echo \"\"",
  "    inpcrd_file=\"$RUN.ncrst\"",
  "    done",
  "",
  "    # Equilibration phase: reference coords are last coords from minimize phase",
  "    REF=$inpcrd_file",
  "    for RUN in step6 step7 step8 step9 ; do",
  "",
  "    echo \"------------------------\"",
  "    echo \"Equilibration phase: $RUN\"",
  "    echo \"------------------------\"",
  "    if [[ ! -f $RUN.out ]]; then",
  "        echo \"File -- $RUN.out -- does not exists. Running job...\"",
  "        runme=1",
  "    else",
  "        grep -q \x27Total wall time\x27 $RUN.out",
  "        retval=$?",
  "        if [ $retval -ne 0 ]; then",
  "        echo \"$RUN did not complete last time. Trying again...\"",
  "        runme=1",
  "        else",
  "            echo \"$RUN has already completed.  Checking the next step.\"",
  "            runme=0",
  "        fi",
  "    fi",
  "",
  "    if [ $runme -eq 1 ]; then",
  "        $PMEMD -O -i $RUN.in -p $prmtop_file -c $inpcrd_file\\",
  "        -ref $REF -o $RUN.out -x $RUN.nc -r $RUN.ncrst -inf $RUN.mdinfo",
  "        grep -q \x27Total wall time\x27 $RUN.out",
  "        retval=$?",
  "        if [ $retval -ne 0 ]; then",
  "            echo \"Error - job failed at this step.\"",
  "        exit $retval",
  "        fi",
  "    fi",
  "",
  "    echo \"\"",
  "    inpcrd_file=\"$RUN.ncrst\"",
  "    done",
  "",
  "    # Reset the time in the restart file to zero:",
  "    sed -i \x27s/0.3000000E+02/0.0000000E+00/g\x27 step9.ncrst",
  "",
  "    STOP=\"`date +%s.%N`\"",
  "    # The divide by 1 in the line below is to overcome a bug in bc...",
  "    TIMING=`echo \"scale=1; ($STOP - $START) / 1;\" | bc`",
  "    echo \"Total run time: $TIMING seconds.\"",
  "    echo \"\"",
  "",
  "    exit 0",
  "    "]


/-- The line of the f-string that assigns the topology path. -/
def prmtopAssign (prmtop : String) : String := "    prmtop_file=\"" ++ prmtop ++ "\""

/-- The line of the f-string that assigns the coordinate path. -/
def inpcrdAssign (inpcrd : String) : String := "    inpcrd_file=\"" ++ inpcrd ++ "\""

/-- The line of the f-string that assigns the solute residue count. -/
def soluteAssign (nres : Nat) : String := "    solute=" ++ toString nres ++ " # number of residues in solute"

/-- The lines of the rendered script: the f-string `script` of the source is
these lines joined by newlines. -/
def scriptLines (prmtop inpcrd : String) (nres : Nat) : List String :=
  tmplHeadLines ++ prmtopAssign prmtop :: inpcrdAssign inpcrd :: soluteAssign nres :: tmplTailLines

/-- The rendered script text: the value of the f-string `script` in
`mesmy_cli` (the program prints this to stdout). -/
def script (prmtop inpcrd : String) (nres : Nat) : String :=
  String.intercalate "\n" (scriptLines prmtop inpcrd nres)


/-- Count of occurrences of a string among the elements of a list of strings. -/
def countEq (x : String) : List String → Nat
  | [] => 0
  | y :: ys => (if y = x then 1 else 0) + countEq x ys

/-- Count of lines (given as character lists) equal to the string `x`. -/
def countLine (x : String) : List (List Char) → Nat
  | [] => 0
  | l :: ls => (if l = x.data then 1 else 0) + countLine x ls

/-- The string `a` is a literal prefix of the string `s`. -/
def strStarts (a s : String) : Prop := a.data <+: s.data

instance (a s : String) : Decidable (strStarts a s) :=
  inferInstanceAs (Decidable (a.data <+: s.data))

/-- Characters of the text obtained by joining the given lines with newline
characters, as the f-string joins the template lines. -/
def intercalateCh : List (List Char) → List Char
  | [] => []
  | [x] => x
  | x :: y :: ys => x ++ Char.ofNat 10 :: intercalateCh (y :: ys)

/-- Splits a character list at newline characters: the lines of a text. -/
def splitLinesCh : List Char → List (List Char)
  | [] => [[]]
  | c :: cs =>
    if c = Char.ofNat 10 then [] :: splitLinesCh cs
    else
      match splitLinesCh cs with
      | [] => [[c]]
      | t :: ts => (c :: t) :: ts

/-- Number of positions at which `pat` occurs as a contiguous run inside `s`. -/
def countSub (pat : List Char) : List Char → Nat
  | [] => if pat = [] then 1 else 0
  | c :: cs => (if pat <+: c :: cs then 1 else 0) + countSub pat cs

/-- Fuel-driven substitution of every occurrence of `name` by `val`. -/
def substVarAux (name val : List Char) : Nat → List Char → List Char
  | _, [] => []
  | 0, l => l
  | fuel + 1, c :: cs =>
    if name <+: c :: cs then val ++ substVarAux name val fuel (cs.drop (name.length - 1))
    else c :: substVarAux name val fuel cs

/-- Modelled from the spec: the generated script is a shell script whose
heredoc blocks undergo shell parameter expansion when the script runs; this
replaces every occurrence of a `$`-variable reference by its value. Only the
`$solute` reference matters for the restraint masks. -/
def expandVar (name val : String) (s : String) : String :=
  String.mk (substVarAux name.data val.data s.data.length s.data)

/-- The restraint-mask text that appears, unexpanded, in six of the heredoc
blocks of the template. -/
def restraintMaskTemplate : String := ":1-$solute & !@H="

/-- The heredoc opening line for stage `k` of the generated workflow. -/
def stepHeader (k : Nat) : String := "    cat > step" ++ toString k ++ ".in <<EOF"

/-- The closing line of every heredoc block in the template. -/
def heredocEnd : String := "    EOF"

/-- The lines of the heredoc block of stage `k` inside a line list: the lines
strictly between the stage header and the next heredoc terminator. -/
def stepBlock (k : Nat) (L : List String) : List String :=
  (((L.dropWhile (fun l => l != stepHeader k)).drop 1).takeWhile (fun l => l != heredocEnd))

/-- Drops characters up to and including the first occurrence of `marker`,
returning `none` when `marker` does not occur. -/
def afterMarker (marker : List Char) : List Char → Option (List Char)
  | [] => none
  | c :: cs =>
    if marker <+: c :: cs then some ((c :: cs).drop marker.length)
    else afterMarker marker cs

/-- The positional restraint weight stated on a template line, in tenths
(`restraint_wt = 5.0` gives `50`), when the line carries one. -/
def wtTenths (l : String) : Option Nat :=
  match afterMarker "restraint_wt = ".data l.data with
  | none => none
  | some (a :: b :: c :: _) =>
    if a.isDigit && b = Char.ofNat 46 && c.isDigit then
      some ((a.toNat - 48) * 10 + (c.toNat - 48))
    else none
  | some _ => none

/-- The positional restraint weight of stage `k` of the template, in tenths,
or `none` when the stage restrains nothing. -/
def stageWt (k : Nat) : Option Nat :=
  (stepBlock k tmplTailLines).filterMap wtTenths |>.head?

/-- Modelled from the spec: a residue record of the structural model produced
by the structure-parsing library (`mdtraj`), which is not part of this
repository. A residue has a name, a solvent classification (the fixed
name-based water classifier of the library) and its atoms; the model is the
ordered list of residues, and every atom belongs to exactly one residue. -/
structure Residue where
  name : String
  isWater : Bool
  atomCount : Nat
deriving DecidableEq

/-- Modelled from the spec: `t.atom_slice(t.topology.select(\x27not water\x27))`
keeps precisely the atoms of the residues not classified as water, in original
order; a residue survives into the sliced model exactly when at least one of
its atoms is kept. -/
def atomSliceNotWater (m : List Residue) : List Residue :=
  m.filter (fun r => !r.isWater && r.atomCount != 0)

/-- `nres` in the source: the residue count of the sliced model. -/
def soluteResidueCount (m : List Residue) : Nat :=
  (atomSliceNotWater m).length

/-- Number of residues of the model classified as water. -/
def waterResidueCount (m : List Residue) : Nat :=
  (m.filter (fun r => r.isWater)).length

/-- The text printed by the tool on a successful run: the rendered script for
the two paths and the non-water residue count of the loaded model. -/
def toolOutput (prmtop inpcrd : String) (m : List Residue) : String :=
  script prmtop inpcrd (soluteResidueCount m)

/-- Modelled from the spec: the command line seen by the argument parser,
reduced to the three recognised flags. -/
structure Cmdline where
  hasVersionFlag : Bool
  inpcrd : Option String
  prmtop : Option String

/-- Modelled from the spec: how an invocation of the CLI ends before any
structure file is read, or proceeds to the workflow. -/
inductive CliOutcome where
  | versionExit (printed : String) (exitCode : Nat)
  | usageError (exitCode : Nat)
  | runWorkflow (inpcrd prmtop : String)
deriving DecidableEq

/-- Modelled from the spec: the argparse-driven entry of `mesmy_cli`. The
`--version` action prints the version string and exits 0; a missing required
flag makes the parser report a usage error and exit with the non-zero status
2; otherwise the two paths are handed to the workflow. -/
def parseCmdline (c : Cmdline) : CliOutcome :=
  if c.hasVersionFlag then CliOutcome.versionExit versionString 0
  else
    match c.inpcrd, c.prmtop with
    | some i, some p => CliOutcome.runWorkflow i p
    | _, _ => CliOutcome.usageError 2

/-- Whether an outcome reaches the structure loader (the only file reads). -/
def readsStructureFiles : CliOutcome → Bool
  | CliOutcome.runWorkflow _ _ => true
  | _ => false


theorem string_eq_of_data {s t : String} (h : s.data = t.data) : s = t := by
  cases s with
  | mk d => cases t with
    | mk e => exact congrArg String.mk (by simpa using h)

theorem countEq_append (x : String) (a b : List String) :
    countEq x (a ++ b) = countEq x a + countEq x b := by
  induction a with
  | nil => simp [countEq]
  | cons y ys ih => simp [countEq, ih]; omega

theorem countEq_eq_zero (x : String) (L : List String) (h : ∀ l ∈ L, l ≠ x) :
    countEq x L = 0 := by
  induction L with
  | nil => rfl
  | cons y ys ih =>
    have hy : y ≠ x := h y (List.mem_cons_self _ _)
    simp [countEq, hy, ih (fun l hl => h l (List.mem_cons_of_mem _ hl))]

theorem countLine_map_data (x : String) (L : List String) :
    countLine x (L.map String.data) = countEq x L := by
  induction L with
  | nil => rfl
  | cons y ys ih =>
    by_cases hxy : y = x
    · subst hxy; simp [countLine, countEq, ih]
    · have hd : y.data ≠ x.data := fun e => hxy (string_eq_of_data e)
      simp [countLine, countEq, ih, hxy, hd]

theorem strStarts_append3 (a x b : String) : strStarts a (a ++ x ++ b) := by
  simp [strStarts, List.append_assoc]

theorem strStarts_take_eq {a s : String} (h : strStarts a s) {n : Nat}
    (hn : n ≤ a.data.length) : s.data.take n = a.data.take n := by
  obtain ⟨r, hr⟩ := h
  rw [← hr, List.take_append_of_le_length hn]

theorem ne_of_strStarts {a b s t : String} (ha : strStarts a s) (hb : strStarts b t)
    (n : Nat) (hna : n ≤ a.data.length) (hnb : n ≤ b.data.length)
    (hab : a.data.take n ≠ b.data.take n) : s ≠ t := by
  intro e
  apply hab
  rw [← strStarts_take_eq ha hna, e, strStarts_take_eq hb hnb]

theorem ne_of_not_strStarts {a s l : String} (hs : strStarts a s)
    (hl : ¬ strStarts a l) : l ≠ s := fun e => hl (e ▸ hs)

theorem prmtopAssign_starts (p : String) :
    strStarts "    prmtop_file=\"" (prmtopAssign p) := strStarts_append3 _ _ _

theorem inpcrdAssign_starts (i : String) :
    strStarts "    inpcrd_file=\"" (inpcrdAssign i) := strStarts_append3 _ _ _

theorem soluteAssign_starts (n : Nat) :
    strStarts "    solute=" (soluteAssign n) := strStarts_append3 _ _ _

theorem stepHeader_starts (k : Nat) :
    strStarts "    cat > step" (stepHeader k) := strStarts_append3 _ _ _

theorem head_no_prmtop : ∀ l ∈ tmplHeadLines, ¬ strStarts "    prmtop_file=\"" l := by
  decide

theorem tail_no_prmtop : ∀ l ∈ tmplTailLines, ¬ strStarts "    prmtop_file=\"" l := by
  decide

theorem head_no_inpcrd : ∀ l ∈ tmplHeadLines, ¬ strStarts "    inpcrd_file=\"" l := by
  decide

theorem tail_inpcrd_only_run : ∀ l ∈ tmplTailLines,
    strStarts "    inpcrd_file=\"" l → l = "    inpcrd_file=\"$RUN.ncrst\"" := by
  decide

theorem head_no_solute : ∀ l ∈ tmplHeadLines, ¬ strStarts "    solute=" l := by
  decide

theorem tail_no_solute : ∀ l ∈ tmplTailLines, ¬ strStarts "    solute=" l := by
  decide

theorem head_no_cat : ∀ l ∈ tmplHeadLines, ¬ strStarts "    cat > step" l := by
  decide

theorem inpcrdAssign_inj {i j : String} (h : inpcrdAssign i = inpcrdAssign j) :
    i = j := by
  have hd := congrArg String.data h
  simp only [inpcrdAssign, String.data_append, List.append_assoc,
    List.append_cancel_left_eq, List.append_cancel_right_eq] at hd
  exact string_eq_of_data hd

theorem countEq_cons (x y : String) (ys : List String) :
    countEq x (y :: ys) = (if y = x then 1 else 0) + countEq x ys := rfl

theorem countEq_prmtopAssign (p i : String) (n : Nat) :
    countEq (prmtopAssign p) (scriptLines p i n) = 1 := by
  have h0 : countEq (prmtopAssign p) tmplHeadLines = 0 :=
    countEq_eq_zero _ _ fun l hl =>
      ne_of_not_strStarts (prmtopAssign_starts p) (head_no_prmtop l hl)
  have h1 : countEq (prmtopAssign p) tmplTailLines = 0 :=
    countEq_eq_zero _ _ fun l hl =>
      ne_of_not_strStarts (prmtopAssign_starts p) (tail_no_prmtop l hl)
  have hii : inpcrdAssign i ≠ prmtopAssign p :=
    ne_of_strStarts (inpcrdAssign_starts i) (prmtopAssign_starts p) 6
      (by decide) (by decide) (by decide)
  have hss : soluteAssign n ≠ prmtopAssign p :=
    ne_of_strStarts (soluteAssign_starts n) (prmtopAssign_starts p) 6
      (by decide) (by decide) (by decide)
  unfold scriptLines
  rw [countEq_append, h0, countEq_cons, countEq_cons, countEq_cons, h1,
    if_pos rfl, if_neg hii, if_neg hss]

theorem countEq_soluteAssign (p i : String) (n : Nat) :
    countEq (soluteAssign n) (scriptLines p i n) = 1 := by
  have h0 : countEq (soluteAssign n) tmplHeadLines = 0 :=
    countEq_eq_zero _ _ fun l hl =>
      ne_of_not_strStarts (soluteAssign_starts n) (head_no_solute l hl)
  have h1 : countEq (soluteAssign n) tmplTailLines = 0 :=
    countEq_eq_zero _ _ fun l hl =>
      ne_of_not_strStarts (soluteAssign_starts n) (tail_no_solute l hl)
  have hpp : prmtopAssign p ≠ soluteAssign n :=
    ne_of_strStarts (prmtopAssign_starts p) (soluteAssign_starts n) 6
      (by decide) (by decide) (by decide)
  have hii : inpcrdAssign i ≠ soluteAssign n :=
    ne_of_strStarts (inpcrdAssign_starts i) (soluteAssign_starts n) 6
      (by decide) (by decide) (by decide)
  unfold scriptLines
  rw [countEq_append, h0, countEq_cons, countEq_cons, countEq_cons, h1,
    if_neg hpp, if_neg hii, if_pos rfl]

theorem countEq_inpcrdAssign (p i : String) (n : Nat) (hi : i ≠ "$RUN.ncrst") :
    countEq (inpcrdAssign i) (scriptLines p i n) = 1 := by
  have h0 : countEq (inpcrdAssign i) tmplHeadLines = 0 :=
    countEq_eq_zero _ _ fun l hl =>
      ne_of_not_strStarts (inpcrdAssign_starts i) (head_no_inpcrd l hl)
  have h1 : countEq (inpcrdAssign i) tmplTailLines = 0 := by
    apply countEq_eq_zero
    intro l hl e
    by_cases hS : strStarts "    inpcrd_file=\"" l
    · have hrun : l = "    inpcrd_file=\"$RUN.ncrst\"" := tail_inpcrd_only_run l hl hS
      have : inpcrdAssign i = inpcrdAssign "$RUN.ncrst" := by
        rw [← e, hrun]; rfl
      exact hi (inpcrdAssign_inj this)
    · exact ne_of_not_strStarts (inpcrdAssign_starts i) hS e
  have hpp : prmtopAssign p ≠ inpcrdAssign i :=
    ne_of_strStarts (prmtopAssign_starts p) (inpcrdAssign_starts i) 6
      (by decide) (by decide) (by decide)
  have hss : soluteAssign n ≠ inpcrdAssign i :=
    ne_of_strStarts (soluteAssign_starts n) (inpcrdAssign_starts i) 6
      (by decide) (by decide) (by decide)
  unfold scriptLines
  rw [countEq_append, h0, countEq_cons, countEq_cons, countEq_cons, h1,
    if_neg hpp, if_pos rfl, if_neg hss]

theorem countEq_stepHeader_scriptLines (k : Nat) (p i : String) (n : Nat)
    (h0 : countEq (stepHeader k) tmplHeadLines = 0)
    (h1 : countEq (stepHeader k) tmplTailLines = 1) :
    countEq (stepHeader k) (scriptLines p i n) = 1 := by
  have hpp : prmtopAssign p ≠ stepHeader k :=
    ne_of_strStarts (prmtopAssign_starts p) (stepHeader_starts k) 6
      (by decide) (by decide) (by decide)
  have hii : inpcrdAssign i ≠ stepHeader k :=
    ne_of_strStarts (inpcrdAssign_starts i) (stepHeader_starts k) 6
      (by decide) (by decide) (by decide)
  have hss : soluteAssign n ≠ stepHeader k :=
    ne_of_strStarts (soluteAssign_starts n) (stepHeader_starts k) 6
      (by decide) (by decide) (by decide)
  unfold scriptLines
  rw [countEq_append, countEq_cons, countEq_cons, countEq_cons,
    if_neg hpp, if_neg hii, if_neg hss, h0, h1]

theorem prefix_through_sep (xs : List Char) : ∀ (pat : List Char),
    Char.ofNat 10 ∉ pat → ∀ ys,
    (pat <+: xs ++ Char.ofNat 10 :: ys ↔ pat <+: xs) := by
  induction xs with
  | nil =>
    intro pat hnl ys
    cases pat with
    | nil => simp
    | cons q qs =>
      have hq : q ≠ Char.ofNat 10 := fun e => hnl (e ▸ List.mem_cons_self _ _)
      simp [List.cons_prefix_cons, fun e => hq e]
  | cons c cs ih =>
    intro pat hnl ys
    cases pat with
    | nil => simp
    | cons q qs =>
      simp only [List.cons_append, List.cons_prefix_cons]
      constructor
      · rintro ⟨rfl, h⟩
        exact ⟨rfl, (ih qs (fun hq => hnl (List.mem_cons_of_mem _ hq)) ys).mp h⟩
      · rintro ⟨rfl, h⟩
        exact ⟨rfl, (ih qs (fun hq => hnl (List.mem_cons_of_mem _ hq)) ys).mpr h⟩

theorem countSub_sep (pat : List Char) (hne : pat ≠ []) (hnl : Char.ofNat 10 ∉ pat)
    (xs ys : List Char) :
    countSub pat (xs ++ Char.ofNat 10 :: ys) = countSub pat xs + countSub pat ys := by
  induction xs with
  | nil =>
    have h := prefix_through_sep [] pat hnl ys
    simp only [List.nil_append, List.prefix_nil] at h
    show (if pat <+: Char.ofNat 10 :: ys then 1 else 0) + countSub pat ys =
      countSub pat [] + countSub pat ys
    rw [if_neg (fun hp => hne (h.mp hp))]
    show 0 + countSub pat ys = (if pat = [] then 1 else 0) + countSub pat ys
    rw [if_neg hne]
  | cons c cs ih =>
    have h := prefix_through_sep (c :: cs) pat hnl ys
    simp only [List.cons_append] at h
    show (if pat <+: c :: (cs ++ Char.ofNat 10 :: ys) then 1 else 0) +
        countSub pat (cs ++ Char.ofNat 10 :: ys) =
      ((if pat <+: c :: cs then 1 else 0) + countSub pat cs) + countSub pat ys
    rw [ih, if_congr h rfl rfl]
    omega

theorem countSub_intercalateCh (pat : List Char) (hne : pat ≠ [])
    (hnl : Char.ofNat 10 ∉ pat) :
    ∀ ls : List (List Char), countSub pat (intercalateCh ls) = (ls.map (countSub pat)).sum := by
  intro ls
  induction ls with
  | nil => simp [intercalateCh, countSub, hne]
  | cons x xs ih =>
    cases xs with
    | nil => simp [intercalateCh]
    | cons y ys =>
      show countSub pat (x ++ Char.ofNat 10 :: intercalateCh (y :: ys)) = _
      rw [countSub_sep pat hne hnl, ih]
      simp

theorem intercalateCh_cons_cons (x y : List Char) (ys : List (List Char)) :
    intercalateCh ((x ++ Char.ofNat 10 :: y) :: ys) =
      x ++ Char.ofNat 10 :: intercalateCh (y :: ys) := by
  cases ys with
  | nil => simp [intercalateCh]
  | cons z zs => simp [intercalateCh, List.append_assoc]

theorem intercalate_go_data (as : List String) : ∀ acc : String,
    (String.intercalate.go acc "\n" as).data = intercalateCh (acc.data :: as.map String.data) := by
  induction as with
  | nil => intro acc; simp [String.intercalate.go, intercalateCh]
  | cons a as ih =>
    intro acc
    show (String.intercalate.go (acc ++ "\n" ++ a) "\n" as).data = _
    rw [ih]
    have hd : (acc ++ "\n" ++ a).data = acc.data ++ Char.ofNat 10 :: a.data := by
      simp only [String.data_append, List.append_assoc]
      rfl
    rw [hd, List.map_cons, intercalateCh_cons_cons]
    rfl

theorem intercalate_data (L : List String) :
    (String.intercalate "\n" L).data = intercalateCh (L.map String.data) := by
  cases L with
  | nil => rfl
  | cons a as =>
    show (String.intercalate.go a "\n" as).data = _
    rw [intercalate_go_data]
    rfl

theorem scriptData (p i : String) (n : Nat) :
    (script p i n).data = intercalateCh ((scriptLines p i n).map String.data) :=
  intercalate_data _

theorem countSub_script (pat : List Char) (hne : pat ≠ []) (hnl : Char.ofNat 10 ∉ pat)
    (p i : String) (n : Nat) :
    countSub pat (script p i n).data =
      ((scriptLines p i n).map (fun l => countSub pat l.data)).sum := by
  rw [scriptData, countSub_intercalateCh pat hne hnl, List.map_map]
  rfl

theorem splitLinesCh_no_nl (xs : List Char) (h : Char.ofNat 10 ∉ xs) :
    splitLinesCh xs = [xs] := by
  induction xs with
  | nil => rfl
  | cons c cs ih =>
    have hc : c ≠ Char.ofNat 10 := fun e => h (e ▸ List.mem_cons_self _ _)
    simp [splitLinesCh, hc, ih (fun hx => h (List.mem_cons_of_mem _ hx))]

theorem splitLinesCh_sep (xs : List Char) (h : Char.ofNat 10 ∉ xs) (ys : List Char) :
    splitLinesCh (xs ++ Char.ofNat 10 :: ys) = xs :: splitLinesCh ys := by
  induction xs with
  | nil => simp [splitLinesCh]
  | cons c cs ih =>
    have hc : c ≠ Char.ofNat 10 := fun e => h (e ▸ List.mem_cons_self _ _)
    have ih2 := ih (fun hx => h (List.mem_cons_of_mem _ hx))
    simp [splitLinesCh, hc, ih2]

theorem splitLinesCh_intercalateCh (ls : List (List Char)) (hne : ls ≠ [])
    (hall : ∀ l ∈ ls, Char.ofNat 10 ∉ l) :
    splitLinesCh (intercalateCh ls) = ls := by
  induction ls with
  | nil => exact absurd rfl hne
  | cons x xs ih =>
    cases xs with
    | nil =>
      show splitLinesCh x = [x]
      exact splitLinesCh_no_nl x (hall x (List.mem_cons_self _ _))
    | cons y ys =>
      show splitLinesCh (x ++ Char.ofNat 10 :: intercalateCh (y :: ys)) = _
      rw [splitLinesCh_sep x (hall x (List.mem_cons_self _ _)),
        ih (by simp) (fun l hl => hall l (List.mem_cons_of_mem _ hl))]

theorem head_no_nl : ∀ l ∈ tmplHeadLines, Char.ofNat 10 ∉ l.data := by decide

theorem tail_no_nl : ∀ l ∈ tmplTailLines, Char.ofNat 10 ∉ l.data := by decide

theorem scriptLines_no_nl (p i : String) (n : Nat)
    (hp : Char.ofNat 10 ∉ p.data) (hi : Char.ofNat 10 ∉ i.data)
    (hn : Char.ofNat 10 ∉ (toString n).data) :
    ∀ l ∈ scriptLines p i n, Char.ofNat 10 ∉ l.data := by
  intro l hl
  unfold scriptLines at hl
  rcases List.mem_append.mp hl with hh | hr
  · exact head_no_nl l hh
  · rcases hr with _ | ⟨_, hr⟩
    · show Char.ofNat 10 ∉ (prmtopAssign p).data
      simp only [prmtopAssign, String.data_append, List.mem_append]
      rintro ((h | h) | h)
      · revert h; decide
      · exact hp h
      · revert h; decide
    rcases hr with _ | ⟨_, hr⟩
    · show Char.ofNat 10 ∉ (inpcrdAssign i).data
      simp only [inpcrdAssign, String.data_append, List.mem_append]
      rintro ((h | h) | h)
      · revert h; decide
      · exact hi h
      · revert h; decide
    rcases hr with _ | ⟨_, hr⟩
    · show Char.ofNat 10 ∉ (soluteAssign n).data
      simp only [soluteAssign, String.data_append, List.mem_append]
      rintro ((h | h) | h)
      · revert h; decide
      · exact hn h
      · revert h; decide
    · exact tail_no_nl l hr

theorem outputLinesEq (p i : String) (n : Nat)
    (hp : Char.ofNat 10 ∉ p.data) (hi : Char.ofNat 10 ∉ i.data)
    (hn : Char.ofNat 10 ∉ (toString n).data) :
    splitLinesCh (script p i n).data = (scriptLines p i n).map String.data := by
  rw [scriptData]
  apply splitLinesCh_intercalateCh
  · simp [scriptLines]
  · intro l hl
    rcases List.mem_map.mp hl with ⟨s, hs, rfl⟩
    exact scriptLines_no_nl p i n hp hi hn s hs

/-- C1: for every structural model with `R` total residues of which `W` are
classified as water, slicing the model to the atoms of the `not water`
selection yields a model whose residue count equals exactly `R - W` (every
residue of a parsed structure carries at least one atom). -/
theorem nonwater_residue_count_additivity (m : List Residue) (R W : Nat)
    (hatoms : ∀ r ∈ m, r.atomCount ≠ 0)
    (hR : m.length = R) (hW : waterResidueCount m = W) :
    soluteResidueCount m = R - W := by
  subst hR hW
  induction m with
  | nil => rfl
  | cons r rs ih =>
    have hr : r.atomCount ≠ 0 := hatoms r (List.mem_cons_self _ _)
    have ih2 := ih (fun x hx => hatoms x (List.mem_cons_of_mem _ hx))
    have hle : waterResidueCount rs ≤ rs.length := List.length_filter_le _ _
    cases hw : r.isWater with
    | true =>
      have h1 : soluteResidueCount (r :: rs) = soluteResidueCount rs := by
        simp [soluteResidueCount, atomSliceNotWater, List.filter_cons, hw]
      have h2 : waterResidueCount (r :: rs) = waterResidueCount rs + 1 := by
        simp [waterResidueCount, List.filter_cons, hw]
      have h3 : (r :: rs).length = rs.length + 1 := rfl
      rw [h1, h2, h3]
      omega
    | false =>
      have h1 : soluteResidueCount (r :: rs) = soluteResidueCount rs + 1 := by
        simp [soluteResidueCount, atomSliceNotWater, List.filter_cons, hw, hr]
      have h2 : waterResidueCount (r :: rs) = waterResidueCount rs := by
        simp [waterResidueCount, List.filter_cons, hw]
      have h3 : (r :: rs).length = rs.length + 1 := rfl
      rw [h1, h2, h3]
      omega

/-- Witness for C1 at a concrete three-residue model with two waters. -/
theorem nonwater_residue_count_additivity_witness :
    (∀ r ∈ [Residue.mk "ALA" false 10, Residue.mk "HOH" true 3,
      Residue.mk "HOH" true 3], r.atomCount ≠ 0) ∧
    soluteResidueCount [Residue.mk "ALA" false 10, Residue.mk "HOH" true 3,
      Residue.mk "HOH" true 3] = 3 - 2 :=
  ⟨by decide, nonwater_residue_count_additivity _ 3 2 (by decide) (by decide) (by decide)⟩

/-- C2 counterexample: the rendered script text does not contain the
substituted values exactly once each. At residue count 50 the digit string
of the substituted count occurs 19 times in the text (the template itself
contains `ncyc = 50`, `ntpr = 50`, ...), and with coordinate path
`$RUN.ncrst` the coordinate assignment line coincides with two fixed
template lines, occurring three times. -/
theorem substituted_values_not_unique_in_text :
    countSub "50".data (script "x.prmtop" "y.inpcrd" 50).data = 19 ∧
    countEq (inpcrdAssign "$RUN.ncrst") (scriptLines "x.prmtop" "$RUN.ncrst" 7) = 3 := by
  constructor
  · rw [countSub_script _ (by decide) (by decide)]
    decide
  · decide

/-- C2 amended: the three designated assignment lines carry the substituted
topology path, coordinate path and residue count, each placeholder
substituted exactly once, and the rest of the template text is unchanged;
the topology and solute assignment lines are unique as lines of the script,
and the coordinate assignment line is unique provided the coordinate path is
not the template text `$RUN.ncrst` (the raw values may still occur inside
unchanged template text). -/
theorem substitution_at_designated_lines (p i : String) (n : Nat)
    (hi : i ≠ "$RUN.ncrst") :
    scriptLines p i n =
      tmplHeadLines ++ prmtopAssign p :: inpcrdAssign i :: soluteAssign n :: tmplTailLines ∧
    countEq (prmtopAssign p) (scriptLines p i n) = 1 ∧
    countEq (inpcrdAssign i) (scriptLines p i n) = 1 ∧
    countEq (soluteAssign n) (scriptLines p i n) = 1 :=
  ⟨rfl, countEq_prmtopAssign p i n, countEq_inpcrdAssign p i n hi,
    countEq_soluteAssign p i n⟩

/-- Witness for the amended C2 at concrete paths and count 42. -/
theorem substitution_at_designated_lines_witness :
    ("b.inpcrd" : String) ≠ "$RUN.ncrst" ∧
    countEq (prmtopAssign "a.prmtop") (scriptLines "a.prmtop" "b.inpcrd" 42) = 1 ∧
    countEq (inpcrdAssign "b.inpcrd") (scriptLines "a.prmtop" "b.inpcrd" 42) = 1 ∧
    countEq (soluteAssign 42) (scriptLines "a.prmtop" "b.inpcrd" 42) = 1 :=
  ⟨by decide, (substitution_at_designated_lines "a.prmtop" "b.inpcrd" 42 (by decide)).2⟩

/-- C3: rendering is deterministic; two renderings from identical topology
path, coordinate path and residue count are byte-identical. -/
theorem render_deterministic (p₁ i₁ : String) (n₁ : Nat) (p₂ i₂ : String) (n₂ : Nat)
    (hp : p₁ = p₂) (hi : i₁ = i₂) (hn : n₁ = n₂) :
    script p₁ i₁ n₁ = script p₂ i₂ n₂ := by
  rw [hp, hi, hn]

/-- Witness for C3 at concrete inputs. -/
theorem render_deterministic_witness :
    ("a.prmtop" : String) = "a.prmtop" ∧
    script "a.prmtop" "b.inpcrd" 5 = script "a.prmtop" "b.inpcrd" 5 :=
  ⟨rfl, render_deterministic "a.prmtop" "b.inpcrd" 5 "a.prmtop" "b.inpcrd" 5 rfl rfl rfl⟩

/-- C4: with a solute residue count of 0 the script is rendered with no
special-casing (the same decomposition as for every count, with `solute=0`
on the assignment line); the six restraint-mask occurrences are the
unexpanded template text `:1-$solute & !@H=`, and expanding the `$solute`
reference at value 0 - as the generated script's shell does inside the
heredocs - yields the degenerate but well-formed mask `:1-0 & !@H=`. -/
theorem zero_solute_degenerate_mask (p i : String) :
    scriptLines p i 0 =
      tmplHeadLines ++ prmtopAssign p :: inpcrdAssign i :: soluteAssign 0 :: tmplTailLines ∧
    soluteAssign 0 = "    solute=0 # number of residues in solute" ∧
    tmplTailLines.countP (fun l => decide (restraintMaskTemplate.data <:+: l.data)) = 6 ∧
    expandVar "$solute" (toString 0) restraintMaskTemplate = ":1-0 & !@H=" :=
  ⟨rfl, by decide, by decide, by decide⟩

/-- C5 counterexample: no line of the output for residue count 50 reads
`solute=50 # number of residues in solute` byte-for-byte; the actual line
carries the template's four-space indentation. -/
theorem solute_line_unindented_absent :
    countLine "solute=50 # number of residues in solute"
      (splitLinesCh (script "x.prmtop" "y.inpcrd" 50).data) = 0 := by
  rw [outputLinesEq _ _ _ (by decide) (by decide) (by decide), countLine_map_data]
  decide

/-- C5 amended: for residue count 50 the output has exactly one line reading
`    solute=50 # number of residues in solute` (the solute assignment line,
including the template's four-space indentation). -/
theorem solute_line_with_indent (p i : String)
    (hp : Char.ofNat 10 ∉ p.data) (hi : Char.ofNat 10 ∉ i.data) :
    countLine "    solute=50 # number of residues in solute"
      (splitLinesCh (script p i 50).data) = 1 := by
  rw [outputLinesEq p i 50 hp hi (by decide), countLine_map_data]
  have h : ("    solute=50 # number of residues in solute" : String) = soluteAssign 50 := by
    decide
  rw [h]
  exact countEq_soluteAssign p i 50

/-- Witness for the amended C5 at concrete paths. -/
theorem solute_line_with_indent_witness :
    Char.ofNat 10 ∉ ("x.prmtop" : String).data ∧
    countLine "    solute=50 # number of residues in solute"
      (splitLinesCh (script "x.prmtop" "y.inpcrd" 50).data) = 1 :=
  ⟨by decide, solute_line_with_indent "x.prmtop" "y.inpcrd" (by decide) (by decide)⟩

/-- C6: for every topology path, coordinate path and residue count, the
rendered script contains exactly nine heredoc-opening lines
`cat > stepK.in <<EOF` (K = 1..9), in order; the five
minimization/equilibration stages carry non-increasing restraint weights
(5.0, 5.0, 2.0, 0.1, none) and the four molecular-dynamics stages likewise
(1.0, 0.5, 0.5, none), all emitted as literal template text. -/
theorem nine_heredoc_blocks (p i : String) (n : Nat) :
    scriptLines p i n =
      tmplHeadLines ++ prmtopAssign p :: inpcrdAssign i :: soluteAssign n :: tmplTailLines ∧
    (∀ k, 1 ≤ k → k ≤ 9 → countEq (stepHeader k) (scriptLines p i n) = 1) ∧
    List.Sublist ([1, 2, 3, 4, 5, 6, 7, 8, 9].map stepHeader) (scriptLines p i n) ∧
    [1, 2, 3, 4, 5, 6, 7, 8, 9].map stageWt =
      [some 50, some 50, some 20, some 1, none, some 10, some 5, some 5, none] ∧
    ((stageWt 2).getD 0 ≤ (stageWt 1).getD 0 ∧ (stageWt 3).getD 0 ≤ (stageWt 2).getD 0 ∧
      (stageWt 4).getD 0 ≤ (stageWt 3).getD 0 ∧ (stageWt 5).getD 0 ≤ (stageWt 4).getD 0) ∧
    ((stageWt 7).getD 0 ≤ (stageWt 6).getD 0 ∧ (stageWt 8).getD 0 ≤ (stageWt 7).getD 0 ∧
      (stageWt 9).getD 0 ≤ (stageWt 8).getD 0) := by
  refine ⟨rfl, ?_, ?_, by decide, by decide, by decide⟩
  · intro k h1 h9
    interval_cases k <;>
      exact countEq_stepHeader_scriptLines _ p i n (by decide) (by decide)
  · have hsub : List.Sublist ([1, 2, 3, 4, 5, 6, 7, 8, 9].map stepHeader) tmplTailLines := by
      decide
    have h2 : List.Sublist tmplTailLines
        (prmtopAssign p :: inpcrdAssign i :: soluteAssign n :: tmplTailLines) :=
      (List.sublist_cons_self _ _).trans
        ((List.sublist_cons_self _ _).trans (List.sublist_cons_self _ _))
    have h3 : List.Sublist (prmtopAssign p :: inpcrdAssign i :: soluteAssign n :: tmplTailLines)
        (scriptLines p i n) := by
      unfold scriptLines
      exact List.sublist_append_right _ _
    exact hsub.trans (h2.trans h3)

/-- Witness for C6: the fourth heredoc-opening line occurs once at concrete
inputs. -/
theorem nine_heredoc_blocks_witness :
    (1 : Nat) ≤ 4 ∧ countEq (stepHeader 4) (scriptLines "a.prmtop" "b.inpcrd" 12) = 1 :=
  ⟨by decide, (nine_heredoc_blocks "a.prmtop" "b.inpcrd" 12).2.1 4 (by decide) (by decide)⟩

/-- C7: an invocation carrying the `--version` flag prints the version
string `1.0.0` and exits with status 0, without reaching the structure
loader. -/
theorem version_flag_behavior (c : Cmdline) (h : c.hasVersionFlag = true) :
    parseCmdline c = CliOutcome.versionExit "1.0.0" 0 ∧
    readsStructureFiles (parseCmdline c) = false := by
  constructor
  · simp [parseCmdline, h, versionString]
  · simp [parseCmdline, h, readsStructureFiles]

/-- Witness for C7 at the concrete command line `--version`. -/
theorem version_flag_behavior_witness :
    (Cmdline.mk true none none).hasVersionFlag = true ∧
    parseCmdline (Cmdline.mk true none none) = CliOutcome.versionExit "1.0.0" 0 :=
  ⟨rfl, (version_flag_behavior (Cmdline.mk true none none) rfl).1⟩

/-- C8: an invocation missing the required `--inpcrd` flag ends in a usage
error with the non-zero exit status 2, without reaching the structure
loader. -/
theorem missing_inpcrd_usage_error (c : Cmdline) (hv : c.hasVersionFlag = false)
    (hm : c.inpcrd = none) :
    parseCmdline c = CliOutcome.usageError 2 ∧ (2 : Nat) ≠ 0 ∧
    readsStructureFiles (parseCmdline c) = false := by
  have h1 : parseCmdline c = CliOutcome.usageError 2 := by
    cases hp : c.prmtop <;> simp [parseCmdline, hv, hm, hp]
  exact ⟨h1, by decide, by rw [h1]; rfl⟩

/-- Witness for C8 at the concrete command line `--prmtop x.prmtop`. -/
theorem missing_inpcrd_usage_error_witness :
    (Cmdline.mk false none (some "x.prmtop")).hasVersionFlag = false ∧
    parseCmdline (Cmdline.mk false none (some "x.prmtop")) = CliOutcome.usageError 2 :=
  ⟨rfl, (missing_inpcrd_usage_error (Cmdline.mk false none (some "x.prmtop")) rfl rfl).1⟩

/-- C9: rendering is total; for every topology path, coordinate path and
residue count the script renders to a string, always with the same 214
lines. -/
theorem render_total (p i : String) (n : Nat) :
    (scriptLines p i n).length = 214 ∧ ∃ s : String, script p i n = s := by
  constructor
  · rfl
  · exact ⟨script p i n, rfl⟩

/-- C10: the printed script depends on the loaded structure only through its
non-water residue count; two models with equal counts give byte-identical
output under identical path arguments. -/
theorem output_depends_only_on_count (p i : String) (m₁ m₂ : List Residue)
    (h : soluteResidueCount m₁ = soluteResidueCount m₂) :
    toolOutput p i m₁ = toolOutput p i m₂ := by
  unfold toolOutput
  rw [h]

/-- Witness for C10 at two structurally different models with one non-water
residue each. -/
theorem output_depends_only_on_count_witness :
    soluteResidueCount [Residue.mk "ALA" false 5, Residue.mk "HOH" true 3] =
      soluteResidueCount
        [Residue.mk "GLY" false 7, Residue.mk "HOH" true 3, Residue.mk "HOH" true 3] ∧
    toolOutput "a.prmtop" "b.inpcrd" [Residue.mk "ALA" false 5, Residue.mk "HOH" true 3] =
      toolOutput "a.prmtop" "b.inpcrd"
        [Residue.mk "GLY" false 7, Residue.mk "HOH" true 3, Residue.mk "HOH" true 3] :=
  ⟨by decide, output_depends_only_on_count "a.prmtop" "b.inpcrd" _ _ (by decide)⟩
